import Mathlib

/-!
Shallow embedding of the mpesajs request-execution substrate:
the error taxonomy and failure classifiers (src/errors/*.ts,
src/errorHandler.ts), the retry/backoff logic and the admission
window (src/utils/RateLimiter.ts), and the operation-level `execute`
wiring used by the four operation classes.

JavaScript conventions modelled explicitly:
- an optional string field of a raw payload is `Option String`;
  JS truthiness of such a field (`error?.x`) holds when the field is
  present and not the empty string;
- `x || y` returns `x` when `x` is truthy, else `y`;
- a template interpolation of a possibly-undefined field prints the
  text `undefined` when the field is absent;
- `new Error(undefined)` yields the empty message string.
-/

namespace Mpesajs

/-- JS truthiness of an optional string field: present and non-empty. -/
def truthy : Option String → Bool
  | none => false
  | some s => s != ""

/-- JS `x || d` for an optional string `x`: the value when truthy, else `d`. -/
def jsOr (x : Option String) (d : String) : String :=
  if truthy x then x.getD "" else d

/-- JS template interpolation of a possibly-undefined field. -/
def interp : Option String → String
  | none => "undefined"
  | some s => s

/-- The nested `error.Envelope.Body.stkCallback` object of an STK callback
rejection (src/errors/PayoutError.ts, StkPushErrorHandler). -/
structure StkCallback where
  ResultCode : Option String
  ResultDesc : Option String
  MerchantRequestID : Option String
  CheckoutRequestID : Option String
deriving DecidableEq, Repr

/-- The `error.header` object of a register-url rejection
(src/errors/RegisterUrlError.ts). -/
structure HeaderObj where
  responseCode : Option String
  responseMessage : Option String
deriving DecidableEq, Repr

/-- A raw failure payload: the untyped (`any`) object the classifiers probe.
Every field the four handlers read is optional; an arbitrary partial or
empty object is the state where every field is `none` / `false`. -/
structure RawFailure where
  resultCode : Option String := none
  resultDesc : Option String := none
  ResponseCode : Option String := none
  ResponseDescription : Option String := none
  CustomerMessage : Option String := none
  MerchantRequestID : Option String := none
  CheckoutRequestID : Option String := none
  ConversationID : Option String := none
  errorCode : Option String := none
  errorMessage : Option String := none
  requestId : Option String := none
  header : Option HeaderObj := none
  stkCallback : Option StkCallback := none
  request : Bool := false
  message : Option String := none
deriving DecidableEq, Repr

/-- The closed error taxonomy (src/errors/*.ts and src/errorHandler.ts):
each constructor is one `MpesaError` subclass, carrying its message and
its optional structured fields. `PayoutError` carries the five optional
fields of the src/errors/PayoutError.ts constructor
(errorCode, requestId, responseCode, conversationId). -/
inductive MpesaError where
  | AuthenticationError (message : String) (errorCode : Option String)
  | ValidationError (message : String) (field : Option String)
  | NetworkError (message : String)
  | StkPushError (message : String) (responseCode merchantRequestId checkoutRequestId : Option String)
  | PayoutError (message : String) (errorCode requestId responseCode conversationId : Option String)
  | RegisterUrlError (message : String) (responseCode shortCode : Option String)
  | GenericError (message : String)
deriving DecidableEq, Repr

/-- The stable discriminator of a taxonomy member (the `name` field set by
each subclass constructor). -/
inductive ErrorKind where
  | authentication | validation | network | stkPush | payout | registerUrl | generic
deriving DecidableEq, Repr

/-- Kind of a taxonomy member. -/
def kindOf : MpesaError → ErrorKind
  | .AuthenticationError _ _ => .authentication
  | .ValidationError _ _ => .validation
  | .NetworkError _ => .network
  | .StkPushError _ _ _ _ => .stkPush
  | .PayoutError _ _ _ _ _ => .payout
  | .RegisterUrlError _ _ _ => .registerUrl
  | .GenericError _ => .generic

/-- Message of a taxonomy member. -/
def messageOf : MpesaError → String
  | .AuthenticationError m _ => m
  | .ValidationError m _ => m
  | .NetworkError m => m
  | .StkPushError m _ _ _ => m
  | .PayoutError m _ _ _ _ => m
  | .RegisterUrlError m _ _ => m
  | .GenericError m => m

namespace AuthenticationErrorHandler

/-- Embedding of `AuthenticationErrorHandler.handle` (src/errors/AuthenticationError.ts):
the thrown `AuthenticationError`, as a returned value. -/
def handle (e : RawFailure) : MpesaError :=
  if truthy e.resultCode then
    match e.resultCode.getD "" with
    | "999991" =>
        .AuthenticationError "Invalid client id passed. Please input the correct username." e.resultCode
    | "999996" =>
        .AuthenticationError "Invalid Authentication passed. Please select type as Basic Auth." e.resultCode
    | "999997" =>
        .AuthenticationError "Invalid Authorization Header. Please input the correct password." e.resultCode
    | "999998" =>
        .AuthenticationError "Required parameter [grant_type] is invalid or empty. Please select grant type as client credentials." e.resultCode
    | _ =>
        .AuthenticationError ("Unknown Auth Error: " ++ interp e.resultDesc) e.resultCode
  else
    .AuthenticationError "Unknown authentication error occurred" none

end AuthenticationErrorHandler

namespace StkPushErrorHandler

/-- Embedding of `StkPushErrorHandler.handle` (src/errors/PayoutError.ts, second half of
the file): the thrown `StkPushError` or `NetworkError`, as a returned value.
The callback default branch assigns `callback.ResultDesc` (possibly
undefined) as the message, which the `Error` constructor turns into the
empty string when absent. -/
def handle (e : RawFailure) : MpesaError :=
  if truthy e.ResponseCode then
    .StkPushError (jsOr e.ResponseDescription (jsOr e.CustomerMessage "STK Push error occurred"))
      e.ResponseCode e.MerchantRequestID e.CheckoutRequestID
  else
    match e.stkCallback with
    | some cb =>
        let msg :=
          if cb.ResultCode = some "TP40087" then
            "User entered wrong M-PESA PIN. Please try again with correct PIN."
          else if cb.ResultCode = some "17" then
            "M-PESA system internal error. Please try again after a few minutes."
          else cb.ResultDesc.getD ""
        .StkPushError msg cb.ResultCode cb.MerchantRequestID cb.CheckoutRequestID
    | none =>
        if e.request then
          .NetworkError "No response received from the API. Please check your network connection."
        else
          .StkPushError "Unknown STK Push error occurred" none none none

end StkPushErrorHandler

namespace PayoutErrorHandler

/-- Embedding of `PayoutErrorHandler.handle` (src/errors/PayoutError.ts): the thrown
`PayoutError` or `NetworkError`, as a returned value. The API-level branch
uses the raw `errorMessage` for every code, with no lookup table. -/
def handle (e : RawFailure) : MpesaError :=
  if truthy e.ResponseCode && e.ResponseCode != some "0" then
    .PayoutError (jsOr e.ResponseDescription "Payout error occurred")
      e.ResponseCode none e.ResponseCode e.ConversationID
  else if truthy e.errorCode then
    .PayoutError (jsOr e.errorMessage "Unknown error occurred") e.errorCode e.requestId none none
  else if e.request then
    .NetworkError "No response received from the API. Please check your network connection."
  else
    .PayoutError ("Unknown Payout error occurred: " ++ jsOr e.message "No error details available")
      none none none none

end PayoutErrorHandler

namespace RegisterUrlErrorHandler

/-- Embedding of `RegisterUrlErrorHandler.handle` (src/errors/RegisterUrlError.ts): the
thrown `RegisterUrlError` or `NetworkError`, as a returned value. -/
def handle (e : RawFailure) : MpesaError :=
  match e.header with
  | some h =>
      .RegisterUrlError (jsOr h.responseMessage "Register URL error occurred") h.responseCode none
  | none =>
      if truthy e.errorCode then
        .RegisterUrlError (jsOr e.errorMessage "Unknown error occurred") e.errorCode none
      else if e.request then
        .NetworkError "No response received from the API. Please check your network connection."
      else
        .RegisterUrlError ("Register URL error occurred: " ++ jsOr e.message "No error details available")
          none none

end RegisterUrlErrorHandler

namespace ErrorHandler

/-- Embedding of `ErrorHandler.handlePayoutError` (src/errorHandler.ts, lines 186-226):
the variant of the payout classifier that maps the three known API error
codes through a fixed message table. Its `PayoutError` constructor takes
(message, responseCode, conversationId), so the API-level branch stores
`errorCode` in the responseCode slot and `requestId` in the conversationId
slot. -/
def handlePayoutError (e : RawFailure) : MpesaError :=
  if truthy e.ResponseCode && e.ResponseCode != some "0" then
    .PayoutError (jsOr e.ResponseDescription "Payout error occurred")
      none none e.ResponseCode e.ConversationID
  else if truthy e.errorCode then
    let msg :=
      if e.errorCode = some "401.002.01" then "Invalid Access Token"
      else if e.errorCode = some "500.001.1001" then "System Error"
      else if e.errorCode = some "403.001.01" then "Access Denied - Invalid Credentials"
      else jsOr e.errorMessage "Unknown error occurred"
    .PayoutError msg none none e.errorCode e.requestId
  else if e.request then
    .NetworkError "No response received from the API. Please check your network connection."
  else
    .PayoutError ("Unknown Payout error occurred: " ++ jsOr e.message "No error details available")
      none none none none

end ErrorHandler

/-- A failure value as seen by `RateLimiter.shouldRetry`: either an
`AxiosError` (optionally carrying `response.status`), a raw non-Axios
payload, or an already-typed taxonomy error thrown before any network
round trip. -/
inductive Failure where
  | axios (status : Option Nat)
  | raw (e : RawFailure)
  | typed (e : MpesaError)
deriving DecidableEq, Repr

namespace RateLimiter

/-- The `RetryConfig` record of src/utils/RateLimiter.ts. Delays are
rationals standing for the JS millisecond numbers. -/
structure RetryConfig where
  maxRetries : Nat
  initialDelayMs : ℚ
  maxDelayMs : ℚ
  backoffFactor : ℚ
deriving DecidableEq, Repr

/-- The `RateLimitConfig` record of src/utils/RateLimiter.ts. -/
structure RateLimitConfig where
  maxConcurrent : Nat
  timeWindowMs : Nat
deriving DecidableEq, Repr

/-- Embedding of `RateLimiter.calculateBackoff`: capped exponential backoff with jitter.
`r` is the value of `Math.random()` for this invocation. -/
def calculateBackoff (cfg : RetryConfig) (attempt : Nat) (r : ℚ) : ℚ :=
  min (cfg.initialDelayMs * cfg.backoffFactor ^ attempt) cfg.maxDelayMs * (3/4 + r * (1/2))

/-- Embedding of `RateLimiter.shouldRetry`: true only for an `AxiosError` whose status is
falsy (no response) or 429/503/504 or in [500, 600). -/
def shouldRetry : Failure → Bool
  | .axios none => true
  | .axios (some s) => s == 0 || s == 429 || s == 503 || s == 504 || (500 ≤ s && s < 600)
  | .raw _ => false
  | .typed _ => false

/-- Instrumented outcome of one invocation of the supplied operation. -/
inductive Outcome (T : Type) where
  | ok (t : T)
  | err (f : Failure)
deriving DecidableEq, Repr

/-- Trace of `executeWithRetry`: final result, number of invocations of the
operation, and the list of `attempt` arguments passed to
`calculateBackoff` (one entry per backoff delay slept). -/
structure RunTrace (T : Type) where
  result : Outcome T
  invocations : Nat
  backoffAttempts : List Nat
deriving DecidableEq, Repr

/-- Embedding of `RateLimiter.executeWithRetry`: invoke the operation; on failure, when
`attempt < maxRetries` and the failure is retry-eligible, compute a backoff
delay, sleep, and recurse with `attempt + 1`; otherwise rethrow the raw
failure. The operation is modelled as a function from invocation index
(equal to the attempt number) to its outcome. -/
def executeWithRetry {T : Type} (cfg : RetryConfig) (op : Nat → Outcome T)
    (attempt : Nat) : RunTrace T :=
  match op attempt with
  | .ok t => ⟨.ok t, 1, []⟩
  | .err f =>
      if h : attempt < cfg.maxRetries ∧ shouldRetry f = true then
        let rest := executeWithRetry cfg op (attempt + 1)
        ⟨rest.result, rest.invocations + 1, attempt :: rest.backoffAttempts⟩
      else
        ⟨.err f, 1, []⟩
termination_by cfg.maxRetries - attempt
decreasing_by omega

/-- The admission ledger: `activeRequests` and `requestTimestamps` of the
`RateLimiter` singleton. `activeRequests` is an integer so that its
non-negativity is a provable property rather than a typing artifact. -/
structure LedgerState where
  activeRequests : ℤ
  requestTimestamps : List Nat
deriving DecidableEq, Repr

/-- Embedding of `RateLimiter.cleanupOldTimestamps`: drop entries with
`now - timestamp >= timeWindowMs` (JS signed arithmetic, so a timestamp in
the future is kept). -/
def cleanupOldTimestamps (cfg : RateLimitConfig) (now : Nat) (s : LedgerState) : LedgerState :=
  ⟨s.activeRequests,
   s.requestTimestamps.filter (fun t => (now : ℤ) - t < (cfg.timeWindowMs : ℤ))⟩

/-- Guard of `waitForAvailableSlot` after cleanup: both ceilings strict. -/
def slotAvailable (cfg : RateLimitConfig) (s : LedgerState) : Bool :=
  s.activeRequests < (cfg.maxConcurrent : ℤ) && s.requestTimestamps.length < cfg.maxConcurrent

/-- One observable event on the admission ledger:
- `poll now`: one iteration of `waitForAvailableSlot` runs
  `cleanupOldTimestamps` (whether or not it then admits);
- `acquire now`: `waitForAvailableSlot` returns and `execute` increments
  `activeRequests` and appends `now`; only possible when the guard holds;
- `finish`: the `finally` block of an in-flight call decrements
  `activeRequests`; there are exactly `activeRequests` calls in flight, so
  a `finish` event requires `activeRequests > 0`. -/
inductive Event where
  | poll (now : Nat)
  | acquire (now : Nat)
  | finish
deriving DecidableEq, Repr

/-- Effect of one event on the ledger; `none` when the event cannot fire. -/
def applyEvent (cfg : RateLimitConfig) (s : LedgerState) : Event → Option LedgerState
  | .poll now => some (cleanupOldTimestamps cfg now s)
  | .acquire now =>
      let s' := cleanupOldTimestamps cfg now s
      if slotAvailable cfg s' then
        some ⟨s'.activeRequests + 1, s'.requestTimestamps ++ [now]⟩
      else none
  | .finish =>
      if 0 < s.activeRequests then some ⟨s.activeRequests - 1, s.requestTimestamps⟩
      else none

/-- Run a sequence of ledger events. -/
def runEvents (cfg : RateLimitConfig) (s : LedgerState) : List Event → Option LedgerState
  | [] => some s
  | e :: es =>
      match applyEvent cfg s e with
      | none => none
      | some s' => runEvents cfg s' es

/-- Embedding of `RateLimiter.execute` for one logical call, sequentially: one admission
(cleanup, guard check, increment, timestamp append), the full
`executeWithRetry` run, then the `finally` decrement. `none` when the
guard does not hold (the caller would still be suspended polling). -/
def execute {T : Type} (rcfg : RetryConfig) (cfg : RateLimitConfig)
    (op : Nat → Outcome T) (now : Nat) (s : LedgerState) :
    Option (RunTrace T × LedgerState) :=
  let s₀ := cleanupOldTimestamps cfg now s
  if slotAvailable cfg s₀ then
    let tr := executeWithRetry rcfg op 0
    some (tr, ⟨s₀.activeRequests + 1 - 1, s₀.requestTimestamps ++ [now]⟩)
  else none

/-- Program counter of one in-flight `executeWithRetry` loop, at the
granularity of its suspension points and its synchronous reads of
`this.retryConfig`:
- `atOp a`: suspended awaiting `operation()` for attempt `a`;
- `caught a f`: the catch block entered, about to read
  `this.retryConfig.maxRetries` and evaluate `shouldRetry`;
- `decided a f b`: the retry decision `b` computed; when `b` is true the
  next synchronous action reads the delay fields for `calculateBackoff`;
- `atDelay a d`: suspended awaiting `delay(d)`;
- `settled r`: the promise resolved or rejected. -/
inductive PC (T : Type) where
  | atOp (attempt : Nat)
  | caught (attempt : Nat) (f : Failure)
  | decided (attempt : Nat) (f : Failure) (retry : Bool)
  | atDelay (attempt : Nat) (d : ℚ)
  | settled (r : Outcome T)
deriving DecidableEq, Repr

/-- State of one in-flight retry loop together with the shared mutable
`retryConfig` it reads, plus ghost counters: operation invocations and
backoff-delay computations performed so far. -/
structure LoopState (T : Type) where
  cfg : RetryConfig
  pc : PC T
  invocations : Nat
  delaysComputed : Nat
deriving DecidableEq, Repr

/-- An action interleaved with the loop: `env c` is a `setRetryConfig`
performed by other code (possible only while the loop is suspended at an
await, per run-to-completion JS scheduling), `step` resumes the loop for
one synchronous stretch. -/
inductive Act where
  | env (c : RetryConfig)
  | step
deriving DecidableEq, Repr

/-- Small-step semantics of the retry loop interleaved with config
updates. `rand a` is the `Math.random()` draw of attempt `a`. -/
def loopStep {T : Type} (op : Nat → Outcome T) (rand : Nat → ℚ)
    (s : LoopState T) : Act → Option (LoopState T)
  | .env c =>
      match s.pc with
      | .atOp _ => some ⟨c, s.pc, s.invocations, s.delaysComputed⟩
      | .atDelay _ _ => some ⟨c, s.pc, s.invocations, s.delaysComputed⟩
      | _ => none
  | .step =>
      match s.pc with
      | .atOp a =>
          match op a with
          | .ok t => some ⟨s.cfg, .settled (.ok t), s.invocations + 1, s.delaysComputed⟩
          | .err f => some ⟨s.cfg, .caught a f, s.invocations + 1, s.delaysComputed⟩
      | .caught a f =>
          some ⟨s.cfg, .decided a f (decide (a < s.cfg.maxRetries) && shouldRetry f),
            s.invocations, s.delaysComputed⟩
      | .decided a f b =>
          if b then
            some ⟨s.cfg, .atDelay a (calculateBackoff s.cfg a (rand a)),
              s.invocations, s.delaysComputed + 1⟩
          else
            some ⟨s.cfg, .settled (.err f), s.invocations, s.delaysComputed⟩
      | .atDelay a _ => some ⟨s.cfg, .atOp (a + 1), s.invocations, s.delaysComputed⟩
      | .settled _ => none

/-- Run a sequence of interleaved actions. -/
def runLoop {T : Type} (op : Nat → Outcome T) (rand : Nat → ℚ)
    (s : LoopState T) : List Act → Option (LoopState T)
  | [] => some s
  | a :: acts =>
      match loopStep op rand s a with
      | none => none
      | some s' => runLoop op rand s' acts

/-- Attempt number attached to a non-settled program counter. -/
def pcAttempt {T : Type} : PC T → Option Nat
  | .atOp a => some a
  | .caught a _ => some a
  | .decided a _ _ => some a
  | .atDelay a _ => some a
  | .settled _ => none

/-- Invariant tracking one entry into the failure-handling step at attempt
`a` with failure `f`, under the config version `c₀` in effect at entry:
until the loop suspends again, its configuration is still `c₀`, and the
delay it computes (if any) comes from `c₀`; afterwards the loop has moved
past attempt `a` or settled. -/
def CaughtInv {T : Type} (rand : Nat → ℚ) (a : Nat) (f : Failure)
    (c₀ : RetryConfig) (s : LoopState T) : Prop :=
  (s.cfg = c₀ ∧ s.pc = .caught a f)
  ∨ (s.cfg = c₀ ∧ s.pc = .decided a f (decide (a < c₀.maxRetries) && shouldRetry f))
  ∨ (s.pc = .atDelay a (calculateBackoff c₀ a (rand a))
      ∧ a < c₀.maxRetries ∧ shouldRetry f = true)
  ∨ (∃ k, a < k ∧ pcAttempt s.pc = some k)
  ∨ (∃ r, s.pc = .settled r)

/-- The default retry configuration (maxRetries 3, 1000ms initial, 10000ms
cap, factor 2), as read from the environment fallbacks. -/
def cfg0 : RetryConfig := ⟨3, 1000, 10000, 2⟩

/-- The configuration after an operator runs `setRetryConfig` with
`maxRetries := 0` mid-flight. -/
def cfgZero : RetryConfig := ⟨0, 1000, 10000, 2⟩

/-- An operation whose every invocation fails with HTTP status 503. -/
def opFail : Nat → Outcome Unit := fun _ => .err (.axios (some 503))

/-- An operation failing twice with HTTP status 503 and succeeding on the
third invocation. -/
def opScenario : Nat → Outcome Unit :=
  fun n => if n < 2 then .err (.axios (some 503)) else .ok ()

/-- An operation that throws an already-typed taxonomy error synchronously
(for example a validation failure raised inside the rate-limited closure). -/
def opTyped : Nat → Outcome Unit := fun _ => .err (.typed (.GenericError "boom"))

/-- A jitter source that always draws 0. -/
def rand0 : Nat → ℚ := fun _ => 0

/-- A retry loop about to invoke the operation for the first time. -/
def startState : LoopState Unit := ⟨cfg0, .atOp 0, 0, 0⟩

/-- Run to completion with no configuration update: three retried attempts
and a fourth exhausting one, 15 synchronous stretches in total. -/
def actsNoUpdate : List Act := List.replicate 15 .step

/-- The same run except that `setRetryConfig` lowers `maxRetries` to 0
while the loop sleeps out its first backoff delay (directly after the loop
entered its failure-handling step for attempt 0). -/
def actsUpdate : List Act :=
  [.step, .step, .step, .env cfgZero, .step, .step, .step, .step]

/-- State of the admission protocol at the fidelity of the await boundary
in `execute`: the shared ledger plus the number of calls whose
`waitForAvailableSlot` has already returned (their guard check passed) but
whose continuation in `execute` (the `activeRequests++` and timestamp
append) has not yet run. -/
structure AdmissionState where
  ledger : LedgerState
  passed : Nat
deriving DecidableEq, Repr

/-- One observable event of the two-phase admission protocol as the source
actually sequences it:
- `poll now`: a `waitForAvailableSlot` iteration runs
  `cleanupOldTimestamps` and finds the guard false, so the call keeps
  waiting;
- `pass now`: a `waitForAvailableSlot` iteration finds the guard true and
  the wait returns; the increment is deferred past the `await` in
  `execute`, so the ledger is not yet changed;
- `enter now`: the deferred continuation of a passed call runs in
  `execute`: `activeRequests++` and the timestamp append, with no further
  guard check;
- `finish`: the `finally` block of an in-flight call decrements
  `activeRequests`. -/
inductive RacyEvent where
  | poll (now : Nat)
  | pass (now : Nat)
  | enter (now : Nat)
  | finish
deriving DecidableEq, Repr

/-- Effect of one two-phase admission event; `none` when it cannot fire. -/
def applyRacyEvent (cfg : RateLimitConfig) (s : AdmissionState) :
    RacyEvent → Option AdmissionState
  | .poll now => some ⟨cleanupOldTimestamps cfg now s.ledger, s.passed⟩
  | .pass now =>
      let l := cleanupOldTimestamps cfg now s.ledger
      if slotAvailable cfg l then some ⟨l, s.passed + 1⟩ else none
  | .enter now =>
      if 0 < s.passed then
        some ⟨⟨s.ledger.activeRequests + 1, s.ledger.requestTimestamps ++ [now]⟩,
          s.passed - 1⟩
      else none
  | .finish =>
      if 0 < s.ledger.activeRequests then
        some ⟨⟨s.ledger.activeRequests - 1, s.ledger.requestTimestamps⟩, s.passed⟩
      else none

/-- Run a sequence of two-phase admission events. -/
def runRacyEvents (cfg : RateLimitConfig) (s : AdmissionState) :
    List RacyEvent → Option AdmissionState
  | [] => some s
  | e :: es =>
      match applyRacyEvent cfg s e with
      | none => none
      | some s' => runRacyEvents cfg s' es

end RateLimiter

/-- A payout rejection carrying the known invalid-token API error code
together with the raw API error message. -/
def payoutCexRaw : RawFailure :=
  { errorCode := some "401.002.01", errorMessage := some "The access token is invalid" }

open RateLimiter

/-- Claim C1: for every operation category (auth, push-payment, payout,
url-registration) and every raw failure input, including arbitrary partial
or empty objects with missing nested fields, the classifier terminates,
never produces anything outside the error taxonomy, and yields exactly one
of the seven kinds: an authentication failure for auth, and the category
failure or a network failure for the other three categories. -/
theorem classifiers_total_within_taxonomy (e : RawFailure) :
    kindOf (AuthenticationErrorHandler.handle e) = .authentication
    ∧ (kindOf (StkPushErrorHandler.handle e) = .stkPush
        ∨ kindOf (StkPushErrorHandler.handle e) = .network)
    ∧ (kindOf (PayoutErrorHandler.handle e) = .payout
        ∨ kindOf (PayoutErrorHandler.handle e) = .network)
    ∧ (kindOf (RegisterUrlErrorHandler.handle e) = .registerUrl
        ∨ kindOf (RegisterUrlErrorHandler.handle e) = .network) := by
  refine ⟨?_, ?_, ?_, ?_⟩
  · unfold AuthenticationErrorHandler.handle
    repeat' split
    all_goals rfl
  · unfold StkPushErrorHandler.handle
    repeat' split
    all_goals simp [kindOf]
  · unfold PayoutErrorHandler.handle
    repeat' split
    all_goals simp [kindOf]
  · unfold RegisterUrlErrorHandler.handle
    repeat' split
    all_goals simp [kindOf]

/-- Witness for claim C1 at the empty raw failure object (every field
missing). -/
theorem classifiers_total_within_taxonomy_witness :
    kindOf (AuthenticationErrorHandler.handle {}) = .authentication
    ∧ (kindOf (StkPushErrorHandler.handle {}) = .stkPush
        ∨ kindOf (StkPushErrorHandler.handle {}) = .network)
    ∧ (kindOf (PayoutErrorHandler.handle {}) = .payout
        ∨ kindOf (PayoutErrorHandler.handle {}) = .network)
    ∧ (kindOf (RegisterUrlErrorHandler.handle {}) = .registerUrl
        ∨ kindOf (RegisterUrlErrorHandler.handle {}) = .network) :=
  classifiers_total_within_taxonomy {}

/-- Claim C2: the retry-eligibility predicate is true for a network-layer
failure with no response, and, for a failure carrying an HTTP status,
exactly when that status is 429, 503, 504 or in [500, 600); it is false
for every already-typed taxonomy error and every non-Axios raw value. -/
theorem shouldRetry_characterization (s : Nat) (hs : 100 ≤ s)
    (e : MpesaError) (r : RawFailure) :
    shouldRetry (.axios none) = true
    ∧ (shouldRetry (.axios (some s)) = true
        ↔ (s = 429 ∨ s = 503 ∨ s = 504 ∨ (500 ≤ s ∧ s < 600)))
    ∧ shouldRetry (.typed e) = false
    ∧ shouldRetry (.raw r) = false := by
  refine ⟨rfl, ?_, rfl, rfl⟩
  simp only [shouldRetry, Bool.or_eq_true, beq_iff_eq, Bool.and_eq_true,
    decide_eq_true_eq]
  omega

/-- Witness for claim C2 at the concrete statuses 503. -/
theorem shouldRetry_characterization_witness :
    100 ≤ 503
    ∧ (shouldRetry (.axios (some 503)) = true
        ↔ (503 = 429 ∨ 503 = 503 ∨ 503 = 504 ∨ (500 ≤ 503 ∧ 503 < 600))) :=
  ⟨by decide,
   (shouldRetry_characterization 503 (by decide) (.GenericError "") {}).2.1⟩

/-- Claim C3: for every valid retry configuration, every attempt and every
jitter draw in [0, 1), the computed backoff delay lies within
[0.75 x base, 1.25 x base] where base is the capped exponential value. -/
theorem calculateBackoff_jitter_band (cfg : RetryConfig) (attempt : Nat) (r : ℚ)
    (hd : 0 < cfg.initialDelayMs) (hmd : cfg.initialDelayMs ≤ cfg.maxDelayMs)
    (hb : 1 < cfg.backoffFactor) (hr0 : 0 ≤ r) (hr1 : r < 1) :
    3/4 * min (cfg.initialDelayMs * cfg.backoffFactor ^ attempt) cfg.maxDelayMs
      ≤ calculateBackoff cfg attempt r
    ∧ calculateBackoff cfg attempt r
      ≤ 5/4 * min (cfg.initialDelayMs * cfg.backoffFactor ^ attempt) cfg.maxDelayMs := by
  have hpow : (0:ℚ) ≤ cfg.backoffFactor ^ attempt :=
    pow_nonneg (by linarith) attempt
  have h0 : (0:ℚ) ≤ min (cfg.initialDelayMs * cfg.backoffFactor ^ attempt) cfg.maxDelayMs :=
    le_min (mul_nonneg hd.le hpow) (by linarith)
  unfold calculateBackoff
  constructor
  · nlinarith [mul_nonneg h0 hr0]
  · nlinarith [mul_nonneg h0 (by linarith : (0:ℚ) ≤ 1 - r)]

/-- Witness for claim C3 on the default configuration at attempt 0 with a
zero jitter draw. -/
theorem calculateBackoff_jitter_band_witness :
    (0:ℚ) < 1000 ∧ (1000:ℚ) ≤ 10000 ∧ (1:ℚ) < 2 ∧ (0:ℚ) ≤ 0 ∧ (0:ℚ) < 1
    ∧ (3/4 * min ((1000:ℚ) * 2 ^ 0) 10000 ≤ calculateBackoff ⟨3, 1000, 10000, 2⟩ 0 0
      ∧ calculateBackoff ⟨3, 1000, 10000, 2⟩ 0 0 ≤ 5/4 * min ((1000:ℚ) * 2 ^ 0) 10000) :=
  ⟨by norm_num, by norm_num, by norm_num, le_refl 0, by norm_num,
   calculateBackoff_jitter_band ⟨3, 1000, 10000, 2⟩ 0 0 (by norm_num) (by norm_num)
     (by norm_num) (le_refl 0) (by norm_num)⟩

/-- Claim C7: for every valid configuration and fixed jitter draw, the
backoff delay is non-decreasing from attempt `a` to attempt `b > a` while
the exponential has not yet saturated at `maxDelay` at attempt `b`; once
it saturates, the delay stays within [0.75, 1.25] times `maxDelay`. -/
theorem calculateBackoff_monotone_saturation (cfg : RetryConfig) (a b : Nat) (r : ℚ)
    (hd : 0 < cfg.initialDelayMs) (hmd : cfg.initialDelayMs ≤ cfg.maxDelayMs)
    (hb : 1 < cfg.backoffFactor) (hr0 : 0 ≤ r) (hr1 : r < 1) :
    (a < b → cfg.initialDelayMs * cfg.backoffFactor ^ b ≤ cfg.maxDelayMs →
      calculateBackoff cfg a r ≤ calculateBackoff cfg b r)
    ∧ (cfg.maxDelayMs ≤ cfg.initialDelayMs * cfg.backoffFactor ^ a →
      3/4 * cfg.maxDelayMs ≤ calculateBackoff cfg a r
      ∧ calculateBackoff cfg a r ≤ 5/4 * cfg.maxDelayMs) := by
  constructor
  · intro hab _hsat
    have hpow : cfg.backoffFactor ^ a ≤ cfg.backoffFactor ^ b :=
      pow_le_pow_right₀ hb.le hab.le
    have hmin :
        min (cfg.initialDelayMs * cfg.backoffFactor ^ a) cfg.maxDelayMs
          ≤ min (cfg.initialDelayMs * cfg.backoffFactor ^ b) cfg.maxDelayMs :=
      min_le_min (mul_le_mul_of_nonneg_left hpow hd.le) le_rfl
    have hj : (0:ℚ) ≤ 3/4 + r * (1/2) := by linarith
    unfold calculateBackoff
    exact mul_le_mul_of_nonneg_right hmin hj
  · intro hsat
    have hmin :
        min (cfg.initialDelayMs * cfg.backoffFactor ^ a) cfg.maxDelayMs = cfg.maxDelayMs :=
      min_eq_right hsat
    have h0 : (0:ℚ) ≤ cfg.maxDelayMs := by linarith
    unfold calculateBackoff
    rw [hmin]
    constructor
    · nlinarith [mul_nonneg h0 hr0]
    · nlinarith [mul_nonneg h0 (by linarith : (0:ℚ) ≤ 1 - r)]

/-- Witness for claim C7 on the default configuration, attempts 0 and 1,
zero jitter draw. -/
theorem calculateBackoff_monotone_saturation_witness :
    (0:ℚ) < 1000 ∧ (1000:ℚ) ≤ 10000 ∧ (1:ℚ) < 2 ∧ (0:ℚ) ≤ 0 ∧ (0:ℚ) < 1
    ∧ ((0 < 1 → (1000:ℚ) * 2 ^ 1 ≤ 10000 →
        calculateBackoff ⟨3, 1000, 10000, 2⟩ 0 0 ≤ calculateBackoff ⟨3, 1000, 10000, 2⟩ 1 0)
      ∧ ((10000:ℚ) ≤ 1000 * 2 ^ 0 →
        3/4 * (10000:ℚ) ≤ calculateBackoff ⟨3, 1000, 10000, 2⟩ 0 0
        ∧ calculateBackoff ⟨3, 1000, 10000, 2⟩ 0 0 ≤ 5/4 * 10000)) :=
  ⟨by norm_num, by norm_num, by norm_num, le_refl 0, by norm_num,
   calculateBackoff_monotone_saturation ⟨3, 1000, 10000, 2⟩ 0 1 0 (by norm_num)
     (by norm_num) (by norm_num) (le_refl 0) (by norm_num)⟩

/-- Claim C8 counterexample: the payout classifier actually wired to
`Payout.send` (`PayoutErrorHandler.handle` in src/errors/PayoutError.ts)
does not consult the lookup table: on the known invalid-token code
`401.002.01` it surfaces the raw API error message, not the fixed
human-readable message. -/
theorem payout_classifier_table_cex :
    PayoutErrorHandler.handle payoutCexRaw
      = .PayoutError "The access token is invalid" (some "401.002.01") none none none
    ∧ messageOf (PayoutErrorHandler.handle payoutCexRaw) ≠ "Invalid Access Token" :=
  ⟨rfl, by decide⟩

/-- Claim C8 (amended): for a payout raw failure with no top-level non-zero
response code but a lower-level API error code present, the
`ErrorHandler.handlePayoutError` classifier maps the codes 401.002.01,
500.001.1001 and 403.001.01 to the fixed messages of its lookup table and
falls back to the raw error message for unknown codes; the
`PayoutErrorHandler.handle` classifier used by `Payout.send` skips the
table and uses the raw error message for every code. -/
theorem payout_error_code_table (e : RawFailure)
    (hrc : (truthy e.ResponseCode && e.ResponseCode != some "0") = false)
    (hec : truthy e.errorCode = true) :
    (e.errorCode = some "401.002.01" →
        messageOf (ErrorHandler.handlePayoutError e) = "Invalid Access Token")
    ∧ (e.errorCode = some "500.001.1001" →
        messageOf (ErrorHandler.handlePayoutError e) = "System Error")
    ∧ (e.errorCode = some "403.001.01" →
        messageOf (ErrorHandler.handlePayoutError e) = "Access Denied - Invalid Credentials")
    ∧ (e.errorCode ≠ some "401.002.01" → e.errorCode ≠ some "500.001.1001" →
        e.errorCode ≠ some "403.001.01" →
        messageOf (ErrorHandler.handlePayoutError e) = jsOr e.errorMessage "Unknown error occurred")
    ∧ messageOf (PayoutErrorHandler.handle e) = jsOr e.errorMessage "Unknown error occurred" := by
  unfold ErrorHandler.handlePayoutError PayoutErrorHandler.handle
  refine ⟨?_, ?_, ?_, ?_, ?_⟩
  · intro h1
    simp [hrc, hec, h1, messageOf, show truthy (some "401.002.01") = true by decide]
  · intro h2
    simp [hrc, hec, h2, messageOf, show truthy (some "500.001.1001") = true by decide]
  · intro h3
    simp [hrc, hec, h3, messageOf, show truthy (some "403.001.01") = true by decide]
  · intro h1 h2 h3; simp [hrc, hec, h1, h2, h3, messageOf]
  · simp [hrc, hec, messageOf]

/-- Witness for claim C8 (amended) at the concrete invalid-token failure. -/
theorem payout_error_code_table_witness :
    (truthy payoutCexRaw.ResponseCode && payoutCexRaw.ResponseCode != some "0") = false
    ∧ truthy payoutCexRaw.errorCode = true
    ∧ (payoutCexRaw.errorCode = some "401.002.01" →
        messageOf (ErrorHandler.handlePayoutError payoutCexRaw) = "Invalid Access Token") :=
  ⟨by decide, by decide,
   (payout_error_code_table payoutCexRaw (by decide) (by decide)).1⟩

/-- Helper: unfolding of `executeWithRetry` on a successful invocation. -/
theorem executeWithRetry_ok {T : Type} (rcfg : RetryConfig) (op : Nat → Outcome T)
    (a : Nat) (t : T) (hop : op a = .ok t) :
    executeWithRetry rcfg op a = ⟨.ok t, 1, []⟩ := by
  rw [executeWithRetry.eq_def, hop]

/-- Helper: unfolding of `executeWithRetry` on a retried failure. -/
theorem executeWithRetry_err_retry {T : Type} (rcfg : RetryConfig) (op : Nat → Outcome T)
    (a : Nat) (f : Failure) (hop : op a = .err f)
    (hc : a < rcfg.maxRetries ∧ shouldRetry f = true) :
    executeWithRetry rcfg op a =
      ⟨(executeWithRetry rcfg op (a + 1)).result,
       (executeWithRetry rcfg op (a + 1)).invocations + 1,
       a :: (executeWithRetry rcfg op (a + 1)).backoffAttempts⟩ := by
  rw [executeWithRetry.eq_def, hop]
  show (if h : a < rcfg.maxRetries ∧ shouldRetry f = true then _ else _) = _
  rw [dif_pos hc]

/-- Helper: unfolding of `executeWithRetry` on a propagated failure. -/
theorem executeWithRetry_err_stop {T : Type} (rcfg : RetryConfig) (op : Nat → Outcome T)
    (a : Nat) (f : Failure) (hop : op a = .err f)
    (hc : ¬(a < rcfg.maxRetries ∧ shouldRetry f = true)) :
    executeWithRetry rcfg op a = ⟨.err f, 1, []⟩ := by
  rw [executeWithRetry.eq_def, hop]
  show (if h : a < rcfg.maxRetries ∧ shouldRetry f = true then _ else _) = _
  rw [dif_neg hc]

/-- Helper: every attempt recorded in `backoffAttempts` was below
`maxRetries` and its failure was retry-eligible. -/
theorem executeWithRetry_backoff_mem {T : Type} (rcfg : RetryConfig) (op : Nat → Outcome T) :
    ∀ (n a : Nat), rcfg.maxRetries - a ≤ n →
      ∀ i ∈ (executeWithRetry rcfg op a).backoffAttempts,
        i < rcfg.maxRetries ∧ ∃ g, op i = .err g ∧ shouldRetry g = true := by
  intro n
  induction n with
  | zero =>
      intro a ha i hi
      cases hop : op a with
      | ok t => rw [executeWithRetry_ok rcfg op a t hop] at hi; simp at hi
      | err f =>
          have hcond : ¬ (a < rcfg.maxRetries ∧ shouldRetry f = true) := by
            intro hc; omega
          rw [executeWithRetry_err_stop rcfg op a f hop hcond] at hi
          simp at hi
  | succ n ih =>
      intro a ha i hi
      cases hop : op a with
      | ok t => rw [executeWithRetry_ok rcfg op a t hop] at hi; simp at hi
      | err f =>
          by_cases hcond : a < rcfg.maxRetries ∧ shouldRetry f = true
          · rw [executeWithRetry_err_retry rcfg op a f hop hcond] at hi
            simp only [List.mem_cons] at hi
            rcases hi with rfl | hi
            · exact ⟨hcond.1, f, hop, hcond.2⟩
            · exact ih (a + 1) (by omega) i hi
          · rw [executeWithRetry_err_stop rcfg op a f hop hcond] at hi
            simp at hi

/-- Helper: when `executeWithRetry` propagates a failure, that failure is
exactly the outcome of its last invocation, which was either not
retry-eligible or past the retry budget. -/
theorem executeWithRetry_err_last {T : Type} (rcfg : RetryConfig) (op : Nat → Outcome T) :
    ∀ (n a : Nat), rcfg.maxRetries - a ≤ n → ∀ (f : Failure),
      (executeWithRetry rcfg op a).result = .err f →
      ∃ k, (executeWithRetry rcfg op a).invocations = k + 1 ∧ op (a + k) = .err f
        ∧ ¬(a + k < rcfg.maxRetries ∧ shouldRetry f = true) := by
  intro n
  induction n with
  | zero =>
      intro a ha f hres
      cases hop : op a with
      | ok t => rw [executeWithRetry_ok rcfg op a t hop] at hres; simp at hres
      | err g =>
          have hcond : ¬ (a < rcfg.maxRetries ∧ shouldRetry g = true) := by
            intro hc; omega
          rw [executeWithRetry_err_stop rcfg op a g hop hcond] at hres ⊢
          simp at hres
          subst hres
          exact ⟨0, rfl, by rw [Nat.add_zero]; exact hop, by rw [Nat.add_zero]; exact hcond⟩
  | succ n ih =>
      intro a ha f hres
      cases hop : op a with
      | ok t => rw [executeWithRetry_ok rcfg op a t hop] at hres; simp at hres
      | err g =>
          by_cases hcond : a < rcfg.maxRetries ∧ shouldRetry g = true
          · rw [executeWithRetry_err_retry rcfg op a g hop hcond] at hres ⊢
            simp only at hres ⊢
            obtain ⟨k, hk, hop', hlast⟩ := ih (a + 1) (by omega) f hres
            refine ⟨k + 1, by simp [hk], ?_, ?_⟩
            · have hkk : a + (k + 1) = a + 1 + k := by omega
              rw [hkk]; exact hop'
            · have hkk : a + (k + 1) = a + 1 + k := by omega
              rw [hkk]; exact hlast
          · rw [executeWithRetry_err_stop rcfg op a g hop hcond] at hres ⊢
            simp at hres
            subst hres
            exact ⟨0, rfl, by rw [Nat.add_zero]; exact hop, by rw [Nat.add_zero]; exact hcond⟩

/-- Claim C4: with `maxRetries = 3`, an operation failing twice with HTTP
status 503 and succeeding on the third invocation returns the success
result after exactly three invocations, with the backoff computation
invoked exactly twice, at attempts 0 and 1; in general every backoff
computation happens at an attempt below `maxRetries` whose failure was
retry-eligible, and `execute` admits (appends a timestamp for) one logical
call exactly once however many retries it performs. -/
theorem executeWithRetry_scenario_503 :
    (∀ (T : Type) (t : T) (op : Nat → Outcome T) (rcfg : RetryConfig),
      rcfg.maxRetries = 3 →
      op 0 = .err (.axios (some 503)) → op 1 = .err (.axios (some 503)) →
      op 2 = .ok t →
      executeWithRetry rcfg op 0 = ⟨.ok t, 3, [0, 1]⟩)
    ∧ (∀ (T : Type) (rcfg : RetryConfig) (op : Nat → Outcome T) (a : Nat),
      ∀ i ∈ (executeWithRetry rcfg op a).backoffAttempts,
        i < rcfg.maxRetries ∧ ∃ g, op i = .err g ∧ shouldRetry g = true)
    ∧ (∀ (T : Type) (rcfg : RetryConfig) (cfg : RateLimitConfig) (op : Nat → Outcome T)
        (now : Nat) (s : LedgerState) (tr : RunTrace T) (s' : LedgerState),
      execute rcfg cfg op now s = some (tr, s') →
      s'.requestTimestamps = (cleanupOldTimestamps cfg now s).requestTimestamps ++ [now]) := by
  refine ⟨?_, ?_, ?_⟩
  · intro T t op rcfg hm h0 h1 h2
    have hsr : shouldRetry (.axios (some 503)) = true := by decide
    have e2 : executeWithRetry rcfg op 2 = ⟨.ok t, 1, []⟩ :=
      executeWithRetry_ok rcfg op 2 t h2
    have e1 : executeWithRetry rcfg op 1 = ⟨.ok t, 2, [1]⟩ := by
      rw [executeWithRetry_err_retry rcfg op 1 _ h1 ⟨by omega, hsr⟩,
        show (1 + 1 : Nat) = 2 from rfl, e2]
    rw [executeWithRetry_err_retry rcfg op 0 _ h0 ⟨by omega, hsr⟩,
      show (0 + 1 : Nat) = 1 from rfl, e1]
  · intro T rcfg op a
    exact executeWithRetry_backoff_mem rcfg op (rcfg.maxRetries - a) a le_rfl
  · intro T rcfg cfg op now s tr s' hex
    unfold execute at hex
    by_cases hslot : slotAvailable cfg (cleanupOldTimestamps cfg now s) = true
    · rw [if_pos hslot] at hex
      cases hex
      rfl
    · rw [if_neg hslot] at hex
      cases hex

/-- Witness for claim C4 on the concrete two-failures-then-success
operation. -/
theorem executeWithRetry_scenario_503_witness :
    cfg0.maxRetries = 3
    ∧ opScenario 0 = .err (.axios (some 503))
    ∧ opScenario 1 = .err (.axios (some 503))
    ∧ opScenario 2 = .ok ()
    ∧ executeWithRetry cfg0 opScenario 0 = ⟨.ok (), 3, [0, 1]⟩ :=
  ⟨rfl, rfl, rfl, rfl,
   executeWithRetry_scenario_503.1 Unit () opScenario cfg0 rfl rfl rfl rfl⟩

/-- Claim C6: whatever the outcome, `execute` releases the admission slot
(the net effect on `activeRequests` is zero); when the outcome is a
failure, the value propagated to the caller is exactly the raw failure
object of the last invocation of the operation, unmodified and
unclassified, and that last failure was either not retry-eligible or past
the retry budget. -/
theorem execute_releases_and_propagates_raw :
    ∀ (T : Type) (rcfg : RetryConfig) (cfg : RateLimitConfig) (op : Nat → Outcome T)
      (now : Nat) (s : LedgerState) (tr : RunTrace T) (s' : LedgerState),
      execute rcfg cfg op now s = some (tr, s') →
      s'.activeRequests = (cleanupOldTimestamps cfg now s).activeRequests
      ∧ ∀ f, tr.result = .err f →
          ∃ k, tr.invocations = k + 1 ∧ op k = .err f
            ∧ ¬(k < rcfg.maxRetries ∧ shouldRetry f = true) := by
  intro T rcfg cfg op now s tr s' hex
  unfold execute at hex
  by_cases hslot : slotAvailable cfg (cleanupOldTimestamps cfg now s) = true
  · rw [if_pos hslot] at hex
    cases hex
    refine ⟨by ring, ?_⟩
    intro f hres
    obtain ⟨k, hk, hop, hlast⟩ :=
      executeWithRetry_err_last rcfg op rcfg.maxRetries 0 (by omega) f hres
    exact ⟨k, hk, by rw [Nat.zero_add] at hop; exact hop,
      by rw [Nat.zero_add] at hlast; exact hlast⟩
  · rw [if_neg hslot] at hex
    cases hex

/-- Witness for claim C6 at a typed (non-retryable) failure thrown inside
the rate-limited closure. -/
theorem execute_releases_and_propagates_raw_witness :
    execute cfg0 ⟨1, 1000⟩ opTyped 0 ⟨0, []⟩
      = some (⟨.err (.typed (.GenericError "boom")), 1, []⟩, ⟨0, [0]⟩)
    ∧ (LedgerState.mk 0 [0]).activeRequests
        = (cleanupOldTimestamps ⟨1, 1000⟩ 0 ⟨0, []⟩).activeRequests := by
  have hstop : executeWithRetry cfg0 opTyped 0
      = ⟨.err (.typed (.GenericError "boom")), 1, []⟩ :=
    executeWithRetry_err_stop cfg0 opTyped 0 _ rfl (fun hc => absurd hc.2 (by decide))
  have hslot : slotAvailable ⟨1, 1000⟩ (cleanupOldTimestamps ⟨1, 1000⟩ 0 ⟨0, []⟩) = true := by
    decide
  have hex : execute cfg0 ⟨1, 1000⟩ opTyped 0 ⟨0, []⟩
      = some (⟨.err (.typed (.GenericError "boom")), 1, []⟩, ⟨0, [0]⟩) := by
    simp only [execute]
    rw [if_pos hslot, hstop]
    decide
  exact ⟨hex,
    (execute_releases_and_propagates_raw Unit cfg0 ⟨1, 1000⟩ opTyped 0 ⟨0, []⟩
      ⟨.err (.typed (.GenericError "boom")), 1, []⟩ ⟨0, [0]⟩ hex).1⟩

/-- Claim C10: an admission appends its timestamp to the sliding-window
ledger before the operation runs and increments `activeCount`; a release
decrements `activeCount` but never removes a timestamp; an admitted
timestamp survives every later event whose clock reading is still within
`timeWindow` of it, whether or not the call has finished; a synchronously
thrown already-typed failure is never retried; and the final ledger of
`execute` does not depend on the outcome of the operation at all, so a failing
call consumes exactly the slots a successful one does. -/
theorem admitted_call_consumes_slots (cfg : RateLimitConfig) :
    (∀ (s : LedgerState) (t : Nat) (s₁ : LedgerState),
      applyEvent cfg s (.acquire t) = some s₁ →
      s₁.requestTimestamps = (cleanupOldTimestamps cfg t s).requestTimestamps ++ [t]
      ∧ s₁.activeRequests = s.activeRequests + 1)
    ∧ (∀ (s s' : LedgerState), applyEvent cfg s .finish = some s' →
      s'.requestTimestamps = s.requestTimestamps ∧ s'.activeRequests = s.activeRequests - 1)
    ∧ (∀ (t : Nat) (s₁ : LedgerState) (events : List Event) (s₂ : LedgerState),
      t ∈ s₁.requestTimestamps →
      (∀ u, (Event.poll u ∈ events ∨ Event.acquire u ∈ events) →
        (u : ℤ) - t < cfg.timeWindowMs) →
      runEvents cfg s₁ events = some s₂ → t ∈ s₂.requestTimestamps)
    ∧ (∀ (T : Type) (rcfg : RetryConfig) (op : Nat → Outcome T) (a : Nat) (e : MpesaError),
      op a = .err (.typed e) → executeWithRetry rcfg op a = ⟨.err (.typed e), 1, []⟩)
    ∧ (∀ (T U : Type) (rcfg : RetryConfig) (opA : Nat → Outcome T) (opB : Nat → Outcome U)
        (now : Nat) (s : LedgerState) (trA : RunTrace T) (trB : RunTrace U)
        (sA sB : LedgerState),
      execute rcfg cfg opA now s = some (trA, sA) →
      execute rcfg cfg opB now s = some (trB, sB) → sA = sB) := by
  refine ⟨?_, ?_, ?_, ?_, ?_⟩
  · intro s t s₁ happ
    simp only [applyEvent] at happ
    split at happ
    · simp only [Option.some.injEq] at happ
      subst happ
      exact ⟨rfl, rfl⟩
    · exact absurd happ (by simp)
  · intro s s' happ
    simp only [applyEvent] at happ
    split at happ
    · simp only [Option.some.injEq] at happ
      subst happ
      exact ⟨rfl, rfl⟩
    · exact absurd happ (by simp)
  · intro t s₁ events
    induction events generalizing s₁ with
    | nil =>
        intro s₂ hmem htimes hrun
        simp only [runEvents, Option.some.injEq] at hrun
        subst hrun
        exact hmem
    | cons e es ih =>
        intro s₂ hmem htimes hrun
        simp only [runEvents] at hrun
        cases happ : applyEvent cfg s₁ e with
        | none => rw [happ] at hrun; simp at hrun
        | some sm =>
            rw [happ] at hrun
            refine ih sm s₂ ?_ (fun u hu => htimes u ?_) hrun
            · cases e with
              | poll u =>
                  simp only [applyEvent, Option.some.injEq] at happ
                  subst happ
                  simp only [cleanupOldTimestamps, List.mem_filter]
                  exact ⟨hmem, by
                    have := htimes u (Or.inl (List.mem_cons_self _ _))
                    simp only [decide_eq_true_eq]
                    exact this⟩
              | acquire u =>
                  simp only [applyEvent] at happ
                  split at happ
                  · simp only [Option.some.injEq] at happ
                    subst happ
                    apply List.mem_append_left
                    simp only [cleanupOldTimestamps, List.mem_filter]
                    exact ⟨hmem, by
                      have := htimes u (Or.inr (List.mem_cons_self _ _))
                      simp only [decide_eq_true_eq]
                      exact this⟩
                  · exact absurd happ (by simp)
              | finish =>
                  simp only [applyEvent] at happ
                  split at happ
                  · simp only [Option.some.injEq] at happ
                    subst happ
                    exact hmem
                  · exact absurd happ (by simp)
            · rcases hu with hu | hu
              · exact Or.inl (List.mem_cons_of_mem _ hu)
              · exact Or.inr (List.mem_cons_of_mem _ hu)
  · intro T rcfg op a e hop
    exact executeWithRetry_err_stop rcfg op a _ hop (fun hc => by
      have : shouldRetry (.typed e) = false := rfl
      rw [this] at hc
      exact absurd hc.2 (by simp))
  · intro T U rcfg opA opB now s trA trB sA sB hA hB
    simp only [execute] at hA hB
    by_cases hslot : slotAvailable cfg (cleanupOldTimestamps cfg now s) = true
    · rw [if_pos hslot] at hA hB
      simp only [Option.some.injEq, Prod.mk.injEq] at hA hB
      rw [← hA.2, ← hB.2]
    · rw [if_neg hslot] at hA
      exact absurd hA (by simp)

/-- Witness for claim C10 at a concrete admission. -/
theorem admitted_call_consumes_slots_witness :
    applyEvent ⟨1, 1000⟩ ⟨0, []⟩ (.acquire 5) = some ⟨1, [5]⟩
    ∧ ((LedgerState.mk 1 [5]).requestTimestamps
        = (cleanupOldTimestamps ⟨1, 1000⟩ 5 ⟨0, []⟩).requestTimestamps ++ [5]
      ∧ (LedgerState.mk 1 [5]).activeRequests = (LedgerState.mk 0 []).activeRequests + 1) :=
  ⟨by decide,
   (admitted_call_consumes_slots ⟨1, 1000⟩).1 ⟨0, []⟩ 5 ⟨1, [5]⟩ (by decide)⟩


/-- Helper: one interleaved action preserves the caught-step snapshot
invariant. -/
theorem loopStep_caught_inv {T : Type} (op : Nat → Outcome T) (rand : Nat → ℚ)
    (a : Nat) (f : Failure) (c₀ : RetryConfig) (s s' : LoopState T) (act : Act)
    (hstep : loopStep op rand s act = some s') (hinv : CaughtInv rand a f c₀ s) :
    CaughtInv rand a f c₀ s' := by
  obtain ⟨cfg, pc, inv, del⟩ := s
  rcases hinv with ⟨hc, hpc⟩ | ⟨hc, hpc⟩ | ⟨hpc, hlt, hsr⟩ | ⟨k, hk, hpc⟩ | ⟨r, hpc⟩
  · simp only at hc hpc
    subst hpc
    cases act with
    | env c => simp [loopStep] at hstep
    | step =>
        simp only [loopStep, Option.some.injEq] at hstep
        subst hstep
        refine Or.inr (Or.inl ⟨hc, ?_⟩)
        simp [hc]
  · simp only at hc hpc
    subst hpc
    cases act with
    | env c => simp [loopStep] at hstep
    | step =>
        simp only [loopStep] at hstep
        by_cases hb : (decide (a < c₀.maxRetries) && shouldRetry f) = true
        · rw [if_pos hb] at hstep
          simp only [Option.some.injEq] at hstep
          subst hstep
          simp only [Bool.and_eq_true, decide_eq_true_eq] at hb
          refine Or.inr (Or.inr (Or.inl ⟨?_, hb.1, hb.2⟩))
          simp [hc]
        · rw [if_neg hb] at hstep
          simp only [Option.some.injEq] at hstep
          subst hstep
          exact Or.inr (Or.inr (Or.inr (Or.inr ⟨_, rfl⟩)))
  · simp only at hpc
    subst hpc
    cases act with
    | env c =>
        simp only [loopStep, Option.some.injEq] at hstep
        subst hstep
        exact Or.inr (Or.inr (Or.inl ⟨rfl, hlt, hsr⟩))
    | step =>
        simp only [loopStep, Option.some.injEq] at hstep
        subst hstep
        exact Or.inr (Or.inr (Or.inr (Or.inl ⟨a + 1, by omega, rfl⟩)))
  · simp only at hpc
    cases pc with
    | atOp m =>
        simp only [pcAttempt, Option.some.injEq] at hpc
        cases act with
        | env c =>
            simp only [loopStep, Option.some.injEq] at hstep
            subst hstep
            exact Or.inr (Or.inr (Or.inr (Or.inl ⟨k, hk, by simp [pcAttempt, hpc]⟩)))
        | step =>
            simp only [loopStep] at hstep
            cases hop : op m with
            | ok t =>
                rw [hop] at hstep
                simp only [Option.some.injEq] at hstep
                subst hstep
                exact Or.inr (Or.inr (Or.inr (Or.inr ⟨_, rfl⟩)))
            | err g =>
                rw [hop] at hstep
                simp only [Option.some.injEq] at hstep
                subst hstep
                exact Or.inr (Or.inr (Or.inr (Or.inl ⟨k, hk, by simp [pcAttempt, hpc]⟩)))
    | caught m g =>
        simp only [pcAttempt, Option.some.injEq] at hpc
        cases act with
        | env c => simp [loopStep] at hstep
        | step =>
            simp only [loopStep, Option.some.injEq] at hstep
            subst hstep
            exact Or.inr (Or.inr (Or.inr (Or.inl ⟨k, hk, by simp [pcAttempt, hpc]⟩)))
    | decided m g b =>
        simp only [pcAttempt, Option.some.injEq] at hpc
        cases act with
        | env c => simp [loopStep] at hstep
        | step =>
            simp only [loopStep] at hstep
            by_cases hb : b = true
            · rw [if_pos hb] at hstep
              simp only [Option.some.injEq] at hstep
              subst hstep
              exact Or.inr (Or.inr (Or.inr (Or.inl ⟨k, hk, by simp [pcAttempt, hpc]⟩)))
            · rw [if_neg hb] at hstep
              simp only [Option.some.injEq] at hstep
              subst hstep
              exact Or.inr (Or.inr (Or.inr (Or.inr ⟨_, rfl⟩)))
    | atDelay m dd =>
        simp only [pcAttempt, Option.some.injEq] at hpc
        cases act with
        | env c =>
            simp only [loopStep, Option.some.injEq] at hstep
            subst hstep
            exact Or.inr (Or.inr (Or.inr (Or.inl ⟨k, hk, by simp [pcAttempt, hpc]⟩)))
        | step =>
            simp only [loopStep, Option.some.injEq] at hstep
            subst hstep
            exact Or.inr (Or.inr (Or.inr (Or.inl ⟨k + 1, by omega, by simp [pcAttempt, hpc]⟩)))
    | settled r' => simp [pcAttempt] at hpc
  · simp only at hpc
    subst hpc
    cases act with
    | env c => simp [loopStep] at hstep
    | step => simp [loopStep] at hstep

/-- Helper: a run of interleaved actions preserves the caught-step
snapshot invariant. -/
theorem runLoop_caught_inv {T : Type} (op : Nat → Outcome T) (rand : Nat → ℚ)
    (a : Nat) (f : Failure) (c₀ : RetryConfig) :
    ∀ (acts : List Act) (s s' : LoopState T),
      runLoop op rand s acts = some s' → CaughtInv rand a f c₀ s →
      CaughtInv rand a f c₀ s' := by
  intro acts
  induction acts with
  | nil =>
      intro s s' hrun hinv
      simp only [runLoop, Option.some.injEq] at hrun
      subst hrun
      exact hinv
  | cons act acts ih =>
      intro s s' hrun hinv
      simp only [runLoop] at hrun
      cases hstep : loopStep op rand s act with
      | none => rw [hstep] at hrun; simp at hrun
      | some sm =>
          rw [hstep] at hrun
          exact ih sm s' hrun (loopStep_caught_inv op rand a f c₀ s sm act hstep hinv)

/-- Claim C9 (amended): a single entry into the failure-handling step uses
one consistent configuration snapshot, the version in effect when the step
was entered: the retry decision reads the `maxRetries` of that snapshot and the
backoff delay it then computes uses the delay fields of that same snapshot,
because no `setRetryConfig` can interleave before the loop next suspends.
An update applied during a backoff delay or a later invocation is observed
by subsequent failure-handling steps, so it may change subsequent retry
counts and delays. -/
theorem retry_step_config_snapshot {T : Type} (op : Nat → Outcome T) (rand : Nat → ℚ)
    (s : LoopState T) (a : Nat) (f : Failure) (acts : List Act) (s' : LoopState T) (d : ℚ)
    (hpc : s.pc = .caught a f) (hrun : runLoop op rand s acts = some s')
    (hpc' : s'.pc = .atDelay a d) :
    d = calculateBackoff s.cfg a (rand a)
    ∧ a < s.cfg.maxRetries ∧ shouldRetry f = true := by
  have hinv : CaughtInv rand a f s.cfg s := Or.inl ⟨rfl, hpc⟩
  have hinv' := runLoop_caught_inv op rand a f s.cfg acts s s' hrun hinv
  rcases hinv' with ⟨hc, hp⟩ | ⟨hc, hp⟩ | ⟨hp, hlt, hsr⟩ | ⟨k, hk, hp⟩ | ⟨r, hp⟩
  · rw [hpc'] at hp; simp at hp
  · rw [hpc'] at hp; simp at hp
  · rw [hpc'] at hp
    injection hp with h1 h2
    exact ⟨h2, hlt, hsr⟩
  · rw [hpc'] at hp
    simp only [pcAttempt, Option.some.injEq] at hp
    omega
  · rw [hpc'] at hp; simp at hp

/-- Witness for claim C9 (amended): a concrete caught step at attempt 0
whose retry decision and computed delay both come from the snapshot
`cfg0` in effect at entry. -/
theorem retry_step_config_snapshot_witness :
    (LoopState.mk cfg0 (.caught 0 (.axios (some 503))) 1 0 : LoopState Unit).pc
      = .caught 0 (.axios (some 503))
    ∧ runLoop opFail rand0 ⟨cfg0, .caught 0 (.axios (some 503)), 1, 0⟩ [.step, .step]
      = some ⟨cfg0, .atDelay 0 (calculateBackoff cfg0 0 (rand0 0)), 1, 1⟩
    ∧ (calculateBackoff cfg0 0 (rand0 0) = calculateBackoff cfg0 0 (rand0 0)
        ∧ 0 < cfg0.maxRetries ∧ shouldRetry (.axios (some 503)) = true) :=
  ⟨rfl, rfl,
   retry_step_config_snapshot opFail rand0 ⟨cfg0, .caught 0 (.axios (some 503)), 1, 0⟩
     0 (.axios (some 503)) [.step, .step]
     ⟨cfg0, .atDelay 0 (calculateBackoff cfg0 0 (rand0 0)), 1, 1⟩
     (calculateBackoff cfg0 0 (rand0 0)) rfl rfl rfl⟩

/-- Claim C9 counterexample: two completed runs over the same operation
(every invocation failing with status 503), the same jitter source and the
same initial configuration (`maxRetries = 3`), differing only in a
`setRetryConfig` update to `maxRetries = 0` applied while the loop sleeps
out the backoff delay of its first failure-handling step, settle with
different invocation and delay-computation counts: 4 invocations and 3
computed delays without the update, 2 and 1 with it. -/
theorem retry_config_snapshot_cex :
    runLoop opFail rand0 startState actsNoUpdate
      = some ⟨cfg0, .settled (.err (.axios (some 503))), 4, 3⟩
    ∧ runLoop opFail rand0 startState actsUpdate
      = some ⟨cfgZero, .settled (.err (.axios (some 503))), 2, 1⟩
    ∧ runLoop opFail rand0 startState [.step, .step, .step]
      = some ⟨cfg0, .atDelay 0 (calculateBackoff cfg0 0 (rand0 0)), 1, 1⟩
    ∧ actsUpdate = [.step, .step, .step] ++ [.env cfgZero] ++ [.step, .step, .step, .step]
    ∧ ¬((4, 3) = ((2, 1) : Nat × Nat)) :=
  ⟨rfl, rfl, rfl, rfl, by decide⟩

/-- Claim C5 (code bug): the source checks the admission guard inside
`waitForAvailableSlot` but performs the increment in `execute` only after
an await boundary, so two calls started in the same synchronous tick both
pass the guard against the unchanged ledger before either increments.
With `maxConcurrent = 1`, after the trace pass, pass, enter, enter the
ledger holds `activeRequests = 2`, observed immediately after the second
admission completes, exceeding `maxConcurrent` and refuting the stated
invariant on the program as written. -/
theorem admission_guard_race_overshoot :
    runRacyEvents ⟨1, 1000⟩ ⟨⟨0, []⟩, 0⟩ [.pass 0, .pass 0, .enter 0, .enter 0]
      = some ⟨⟨2, [0, 0]⟩, 0⟩
    ∧ ¬((LedgerState.mk 2 [0, 0]).activeRequests ≤ ((1 : Nat) : ℤ)) :=
  ⟨by decide, by decide⟩

end Mpesajs
